import Mathlib

/-!
Verification development for the bencode decoder and torrent-metadata
extractor of this repository (src/bencode.rs, src/torrent.rs).

The Rust source is shallowly embedded: byte buffers are `List Nat`
(each element one byte value), the tokenizer's mutable cursor becomes
explicit state passing, and every fallible computation returns `PRes`,
whose `panic` constructor models a Rust panic caused by an
out-of-bounds index or slice.  The recursive-descent loops of
`parse_dict`/`parse_list` are driven by a fuel parameter; fuel
`data.length + 1` is always sufficient because every loop iteration
consumes at least one byte of the buffer, so the `fuel = 0` branch is
unreachable from the top-level entry point `parse`.
-/

/-- Result of running a piece of Rust code: a value, an `Err(String)`,
or a panic (out-of-bounds index/slice). -/
inductive PRes (α : Type) where
  | ok (a : α)
  | err (e : String)
  | panic
deriving Repr

/-- Byte span `{start, end}` (half-open) as in `struct Pos` of
src/bencode.rs; the Rust field `end` is named `stop` here because `end`
is a Lean keyword. -/
structure Pos where
  start : Nat
  stop : Nat
deriving Repr, DecidableEq

/-- Tagged values, as `enum Bencode` of src/bencode.rs.  The Rust
`HashMap<String, Bencode>` of the `Dict` variant is modelled as an
association list over the key's UTF-8 bytes together with the
replace-or-append insertion `hmInsert` below, which has exactly the
observable lookup behaviour of `HashMap::insert`/`get`. -/
inductive Bencode where
  | int (v : Int) (p : Pos)
  | string (s : List Nat) (p : Pos)
  | list (xs : List Bencode) (p : Pos)
  | dict (entries : List (List Nat × Bencode)) (p : Pos)

/-- Tokens of the format, as `enum Token` of src/bencode.rs. -/
inductive Token where
  | int (v : Int)
  | string (s : List Nat)
  | listStart
  | dictStart
  | listDictEnd

/-- The tokenizer state: the buffer and the cursor (`struct Tokenizer`). -/
structure Tokenizer where
  data : List Nat
  index : Nat

/-- Lookup in the modelled `HashMap`: value of the first (unique) binding. -/
def hmGet (m : List (List Nat × Bencode)) (k : List Nat) : Option Bencode :=
  match m with
  | [] => none
  | (k2, v) :: rest => if k2 = k then some v else hmGet rest k

/-- `HashMap::insert`: replace the value of an existing binding, else append. -/
def hmInsert (m : List (List Nat × Bencode)) (k : List Nat) (v : Bencode) :
    List (List Nat × Bencode) :=
  match m with
  | [] => [(k, v)]
  | (k2, v2) :: rest =>
    if k2 = k then (k2, v) :: rest else (k2, v2) :: hmInsert rest k v

/-- Rust slice `data[a..b]` (only evaluated under in-bounds checks). -/
def byteSlice (data : List Nat) (a b : Nat) : List Nat :=
  (data.take b).drop a

/-- Decimal value of a run of ASCII digit bytes (base-10 Horner fold,
as Rust's `str::parse` accumulates). -/
def digitsVal (s : List Nat) : Nat :=
  s.foldl (fun a b => a * 10 + (b - 48)) 0

/-- One byte is an ASCII digit. -/
def isDigitB (b : Nat) : Bool :=
  decide (48 ≤ b ∧ b ≤ 57)

/-- Rust `str::parse::<usize>` on the digit-only slices produced by the
string-length scanner: fails on an empty run, a non-digit, or overflow
past the 64-bit range. -/
def parseUsize (s : List Nat) : PRes Nat :=
  if s = [] then .err "cannot parse integer from empty string"
  else if s.all isDigitB then
    if digitsVal s < 2 ^ 64 then .ok (digitsVal s) else .err "number too large to fit in target type"
  else .err "invalid digit found in string"

/-- Digit-run part of Rust `str::parse::<i64>`: after the optional
single `+`/`-` sign, one or more digits (leading zeros accepted) with a
signed 64-bit range check. -/
def parseI64core (neg : Bool) (ds : List Nat) : PRes Int :=
  if ds = [] then .err "invalid digit found in string"
  else if ds.all isDigitB then
    if -(2 ^ 63) ≤ (if neg then -(digitsVal ds : Int) else (digitsVal ds : Int)) ∧
        (if neg then -(digitsVal ds : Int) else (digitsVal ds : Int)) < 2 ^ 63 then
      .ok (if neg then -(digitsVal ds : Int) else (digitsVal ds : Int))
    else .err "number out of range"
  else .err "invalid digit found in string"

/-- Rust `str::parse::<i64>` proper: dispatch on an optional sign byte. -/
def parseI64 (s : List Nat) : PRes Int :=
  match s with
  | [] => .err "cannot parse integer from empty string"
  | c :: rest =>
    if c = 45 then parseI64core true rest
    else if c = 43 then parseI64core false rest
    else parseI64core false s

/-- State-machine core of UTF-8 validation: `k` is the number of
continuation bytes still expected, and `lo`/`hi` bound the next
expected byte when `k > 0` (the first continuation byte of a sequence
has a restricted range that excludes overlong forms, surrogates and
values above 0x10FFFF; later ones are plain 128-191). -/
def utf8Aux : List Nat → Nat → Nat → Nat → Bool
  | [], k, _, _ => k = 0
  | b :: l, 0, _, _ =>
    if b ≤ 127 then utf8Aux l 0 0 0
    else if 194 ≤ b ∧ b ≤ 223 then utf8Aux l 1 128 191
    else if b = 224 then utf8Aux l 2 160 191
    else if (225 ≤ b ∧ b ≤ 236) ∨ b = 238 ∨ b = 239 then utf8Aux l 2 128 191
    else if b = 237 then utf8Aux l 2 128 159
    else if b = 240 then utf8Aux l 3 144 191
    else if 241 ≤ b ∧ b ≤ 243 then utf8Aux l 3 128 191
    else if b = 244 then utf8Aux l 3 128 143
    else false
  | b :: l, k + 1, lo, hi =>
    if lo ≤ b ∧ b ≤ hi then utf8Aux l k 128 191 else false

/-- UTF-8 validity of a byte sequence, as checked by Rust's
`String::from_utf8`/`str::from_utf8` (RFC 3629: shortest forms only,
no surrogates, maximum scalar value 0x10FFFF). -/
def validUtf8 (l : List Nat) : Bool :=
  utf8Aux l 0 0 0

/-- Scan of the string-length loop in `Tokenizer::next_string`: walk the
suffix of the buffer from cursor `i`, skipping digits, stopping at `:`;
running off the end of the buffer is the panic of `self.data[self.index]`.
Returns the cursor position of the `:`. -/
def scanColonAux : List Nat → Nat → PRes Nat
  | [], _ => .panic
  | c :: rest, i =>
    if 48 ≤ c ∧ c ≤ 57 then scanColonAux rest (i + 1)
    else if c = 58 then .ok i
    else .err "Invalid token in string"

/-- Scan of the loop in `Tokenizer::next_int`: walk the suffix of the
buffer from cursor `i` until the byte `e` (101); running off the end is
the panic of `self.data[self.index]`.  Returns the position of the `e`. -/
def scanEAux : List Nat → Nat → PRes Nat
  | [], _ => .panic
  | c :: rest, i => if c = 101 then .ok i else scanEAux rest (i + 1)

/-- `Tokenizer::next_string` (src/bencode.rs lines 92-110): scan the
declared length, slice out that many bytes after the `:`.  The Rust
slice `self.data[self.index+1..self.index+length+1]` panics when the
declared length reads past the end of the buffer. -/
def Tokenizer.next_string (t : Tokenizer) : PRes (Token × Tokenizer) :=
  match scanColonAux (t.data.drop t.index) t.index with
  | .ok colon =>
    let lenBytes := byteSlice t.data t.index colon
    if validUtf8 lenBytes then
      match parseUsize lenBytes with
      | .ok length =>
        if t.data.length < colon + length + 1 then .panic
        else
          .ok (.string (byteSlice t.data (colon + 1) (colon + length + 1)),
               ⟨t.data, colon + length + 1⟩)
      | .err e => .err e
      | .panic => .panic
    else .err "invalid utf-8 sequence"
  | .err e => .err e
  | .panic => .panic

/-- `Tokenizer::next_int` (src/bencode.rs lines 111-126): skip the `i`,
scan to the terminating `e`, then convert the bytes in between with
`String::from_utf8` followed by `parse::<i64>`. -/
def Tokenizer.next_int (t : Tokenizer) : PRes (Token × Tokenizer) :=
  match scanEAux (t.data.drop (t.index + 1)) (t.index + 1) with
  | .ok eIdx =>
    let body := byteSlice t.data (t.index + 1) eIdx
    if validUtf8 body then
      match parseI64 body with
      | .ok v => .ok (.int v, ⟨t.data, eIdx + 1⟩)
      | .err e => .err e
      | .panic => .panic
    else .err "invalid utf-8 sequence"
  | .err e => .err e
  | .panic => .panic

/-- `Tokenizer::next` (src/bencode.rs lines 68-91): dispatch on the
byte at the cursor. -/
def Tokenizer.next (t : Tokenizer) : PRes (Token × Tokenizer) :=
  if t.data.length ≤ t.index then .err "No more tokens"
  else
    let c := t.data.getD t.index 0
    if c = 105 then t.next_int
    else if 48 ≤ c ∧ c ≤ 57 then t.next_string
    else if c = 100 then .ok (.dictStart, ⟨t.data, t.index + 1⟩)
    else if c = 101 then .ok (.listDictEnd, ⟨t.data, t.index + 1⟩)
    else if c = 108 then .ok (.listStart, ⟨t.data, t.index + 1⟩)
    else .err "Invalid token"

mutual

/-- `Parser::parse_dict` (src/bencode.rs lines 160-189), with the
accumulated map and the loop expressed as fuel-indexed tail recursion.
Note the faithful quirks: the value of a nested dict/list is parsed
with a `Pos` whose `start` is the cursor after its opening marker, and
duplicate keys go through `hmInsert` (last write wins). -/
def parse_dict : Nat → Tokenizer → List (List Nat × Bencode) → Pos → PRes (Bencode × Tokenizer)
  | 0, _, _, _ => .panic
  | f + 1, t, dict, pos =>
    match t.next with
    | .ok (.string key, t1) =>
      if validUtf8 key then
        let start := t1.index
        match t1.next with
        | .ok (.int v, t2) =>
          parse_dict f t2 (hmInsert dict key (.int v ⟨start, t2.index⟩)) pos
        | .ok (.string s, t2) =>
          parse_dict f t2 (hmInsert dict key (.string s ⟨start, t2.index⟩)) pos
        | .ok (.dictStart, t2) =>
          match parse_dict f t2 [] ⟨t2.index, 0⟩ with
          | .ok (v, t3) => parse_dict f t3 (hmInsert dict key v) pos
          | r => r
        | .ok (.listStart, t2) =>
          match parse_list f t2 [] ⟨t2.index, 0⟩ with
          | .ok (v, t3) => parse_dict f t3 (hmInsert dict key v) pos
          | r => r
        | .ok (.listDictEnd, _) => .err "Unexpected token"
        | .err e => .err ("parse_dict > parsing value for key: " ++ e)
        | .panic => .panic
      else .err "invalid utf-8 sequence"
    | .ok (.listDictEnd, t1) => .ok (.dict dict ⟨pos.start, t1.index⟩, t1)
    | .ok (_, _) => .err "Unexpected token"
    | .err e => .err e
    | .panic => .panic

/-- `Parser::parse_list` (src/bencode.rs lines 190-210).  Faithful
quirk: the `Int` arm builds its span as `Pos{end: idx, ..pos}`, so an
integer element inherits `start` from the enclosing list's `pos`. -/
def parse_list : Nat → Tokenizer → List Bencode → Pos → PRes (Bencode × Tokenizer)
  | 0, _, _, _ => .panic
  | f + 1, t, lst, pos =>
    let start := t.index
    match t.next with
    | .ok (.int v, t1) => parse_list f t1 (lst ++ [.int v ⟨pos.start, t1.index⟩]) pos
    | .ok (.string s, t1) => parse_list f t1 (lst ++ [.string s ⟨start, t1.index⟩]) pos
    | .ok (.dictStart, t1) =>
      match parse_dict f t1 [] ⟨start, 0⟩ with
      | .ok (v, t2) => parse_list f t2 (lst ++ [v]) pos
      | r => r
    | .ok (.listStart, t1) =>
      match parse_list f t1 [] ⟨start, 0⟩ with
      | .ok (v, t2) => parse_list f t2 (lst ++ [v]) pos
      | r => r
    | .ok (.listDictEnd, t1) => .ok (.list lst ⟨pos.start, t1.index⟩, t1)
    | .err e => .err e
    | .panic => .panic

end

/-- `Parser::parse` (src/bencode.rs lines 143-158). -/
def Parser.parse (fuel : Nat) (t : Tokenizer) : PRes (Bencode × Tokenizer) :=
  let start := t.index
  match t.next with
  | .ok (tok, t1) =>
    let pos : Pos := ⟨start, t1.index⟩
    match tok with
    | .int v => .ok (.int v pos, t1)
    | .string s => .ok (.string s pos, t1)
    | .dictStart => parse_dict fuel t1 [] pos
    | .listStart => parse_list fuel t1 [] pos
    | .listDictEnd => .err "Unexpected token"
  | .err e => .err ("parse: " ++ e)
  | .panic => .panic

/-- Run the decoder on a whole buffer: a fresh `Parser` (cursor 0) with
sufficient fuel (every `parse_dict`/`parse_list` iteration consumes at
least one byte, so `data.length + 1` units are never exhausted). -/
def parse (data : List Nat) : PRes Bencode :=
  match Parser.parse (data.length + 1) ⟨data, 0⟩ with
  | .ok (b, _) => .ok b
  | .err e => .err e
  | .panic => .panic

/-- Bytes of an ASCII string literal (used only for ASCII key names). -/
def ascii (s : String) : List Nat :=
  s.data.map fun c => c.toNat

/-- A file entry of the torrent metadata (`struct File`, src/torrent.rs);
path segments are kept as the byte sequences of the UTF-8 validated
Rust `String`s. -/
structure File where
  length : Int
  path : List (List Nat)

/-- The info block (`struct Info`, src/torrent.rs); the `Pieces`
newtype around `Vec<[u8; 20]>` is modelled as a list of the 20-byte
chunks. -/
structure Info where
  files : Option (List File)
  length : Option Int
  name : List Nat
  piece_length : Int
  pieces : List (List Nat)

/-- The whole torrent file record (`struct TorrentFile`, src/torrent.rs). -/
structure TorrentFile where
  announce : List Nat
  created_by : Option (List Nat)
  creation_date : Option Int
  info : Info

/-- Helper `extract_string` of src/torrent.rs: a required UTF-8 text field. -/
def extract_string (data : List (List Nat × Bencode)) (key : List Nat) :
    Except String (List Nat) :=
  match hmGet data key with
  | some (.string s _) =>
    if validUtf8 s then .ok s else .error "Invalid announce string"
  | _ => .error "Invalid announce string"

/-- Helper `extract_optional_string` of src/torrent.rs. -/
def extract_optional_string (data : List (List Nat × Bencode)) (key : List Nat) :
    Except String (Option (List Nat)) :=
  match hmGet data key with
  | some (.string s _) =>
    if validUtf8 s then .ok (some s) else .error "Invalid string"
  | some _ => .error "Invalid created by type"
  | none => .ok none

/-- Helper `extract_i64` of src/torrent.rs: a required integer field. -/
def extract_i64 (data : List (List Nat × Bencode)) (key : List Nat) :
    Except String Int :=
  match hmGet data key with
  | some (.int i _) => .ok i
  | _ => .error "Invalid i64"

/-- Helper `extract_option_i64` of src/torrent.rs. -/
def extract_option_i64 (data : List (List Nat × Bencode)) (key : List Nat) :
    Except String (Option Int) :=
  match hmGet data key with
  | some (.int i _) => .ok (some i)
  | some _ => .error "Invalid option type"
  | none => .ok none

/-- The `while i < s.len()` loop of `extract_pieces` (src/torrent.rs
lines 165-180): chop the byte string into 20-byte chunks.  The Rust
slice `s[i..i+20]` panics whenever fewer than 20 bytes remain, which is
the case exactly when the remaining suffix is non-empty but shorter
than 20; the `try_into` error arm is unreachable because the slice,
when it exists, always has exactly 20 bytes. -/
def piecesChunks : List Nat → PRes (List (List Nat))
  | [] => .ok []
  | b1 :: b2 :: b3 :: b4 :: b5 :: b6 :: b7 :: b8 :: b9 :: b10 ::
    b11 :: b12 :: b13 :: b14 :: b15 :: b16 :: b17 :: b18 :: b19 :: b20 :: rest =>
    match piecesChunks rest with
    | .ok ps => .ok ([b1, b2, b3, b4, b5, b6, b7, b8, b9, b10,
                      b11, b12, b13, b14, b15, b16, b17, b18, b19, b20] :: ps)
    | r => r
  | _ => .panic

/-- `extract_pieces` of src/torrent.rs: a missing "pieces" key yields
an empty digest table (the `None => Ok(Pieces(pieces))` arm). -/
def extract_pieces (data : List (List Nat × Bencode)) : PRes (List (List Nat)) :=
  match hmGet data (ascii "pieces") with
  | some (.string s _) => piecesChunks s
  | some _ => .err "Invalid pieces type"
  | none => .ok []

/-- The path-collecting loop of `File::from_bencode` (src/torrent.rs
lines 96-111): every element must be a ByteString whose bytes are
valid UTF-8. -/
def pathSegments : List Bencode → Except String (List (List Nat))
  | [] => .ok []
  | .string s _ :: rest =>
    if validUtf8 s then
      match pathSegments rest with
      | .ok ps => .ok (s :: ps)
      | .error e => .error e
    else .error "Invalid path string"
  | _ :: _ => .error "Invalid path type"

/-- `File::from_bencode` (src/torrent.rs lines 91-116); the `length`
field is extracted first, matching the Rust struct-literal evaluation
order. -/
def File.from_bencode (data : Bencode) : Except String File :=
  match data with
  | .dict d _ =>
    match extract_i64 d (ascii "length") with
    | .ok len =>
      match hmGet d (ascii "path") with
      | some (.list p _) =>
        match pathSegments p with
        | .ok paths => .ok ⟨len, paths⟩
        | .error e => .error e
      | _ => .error "Invalid path, expected list"
    | .error e => .error e
  | _ => .error "Expected dictionary for file"

/-- The file-collecting loop of `Info::from_bencode` (src/torrent.rs
lines 68-77): any entry failing `File::from_bencode` aborts with the
message "Invalid file". -/
def filesFrom : List Bencode → Except String (List File)
  | [] => .ok []
  | f :: rest =>
    match File.from_bencode f with
    | .ok file =>
      match filesFrom rest with
      | .ok fs => .ok (file :: fs)
      | .error e => .error e
    | .error _ => .error "Invalid file"

/-- `Info::from_bencode` (src/torrent.rs lines 63-89); fields are
extracted in the Rust struct-literal order: files, length, name,
piece_length, pieces. -/
def Info.from_bencode (data : Bencode) : PRes Info :=
  match data with
  | .dict d _ =>
    match
      (match hmGet d (ascii "files") with
       | some (.list bfiles _) =>
         match filesFrom bfiles with
         | .ok fs => Except.ok (some fs)
         | .error e => Except.error e
       | some _ => Except.error "Invalid files type"
       | none => Except.ok none) with
    | .error e => .err e
    | .ok files =>
      match extract_option_i64 d (ascii "length") with
      | .error e => .err e
      | .ok len =>
        match extract_string d (ascii "name") with
        | .error e => .err e
        | .ok name =>
          match extract_i64 d (ascii "piece length") with
          | .error e => .err e
          | .ok pl =>
            match extract_pieces d with
            | .ok ps => .ok ⟨files, len, name, pl, ps⟩
            | .err e => .err e
            | .panic => .panic
  | _ => .err "Expected dictionary for info"

/-- `TorrentFile::from_bencode` (src/torrent.rs lines 43-62); fields
in Rust struct-literal order: announce, creation_date, created_by, info. -/
def TorrentFile.from_bencode (data : Bencode) : PRes TorrentFile :=
  match data with
  | .dict d _ =>
    match extract_string d (ascii "announce") with
    | .error e => .err e
    | .ok ann =>
      match extract_option_i64 d (ascii "creation date") with
      | .error e => .err e
      | .ok cdate =>
        match extract_optional_string d (ascii "created by") with
        | .error e => .err e
        | .ok cby =>
          match hmGet d (ascii "info") with
          | some info =>
            match Info.from_bencode info with
            | .ok i => .ok ⟨ann, cby, cdate, i⟩
            | .err e => .err e
            | .panic => .panic
          | none => .err "Missing info"
  | _ => .err "Expected dictionary"

/-- Little-endian decimal digit bytes of a positive number, with fuel
(the fuel is always taken to be the number itself, which suffices). -/
def natDecAux : Nat → Nat → List Nat
  | 0, _ => []
  | _, 0 => []
  | f + 1, n + 1 => ((n + 1) % 10 + 48) :: natDecAux f ((n + 1) / 10)

/-- Canonical decimal byte representation of a natural number: no
leading zeros, and `0` is the single byte "0". -/
def natDecimal (n : Nat) : List Nat :=
  if n = 0 then [48] else (natDecAux n n).reverse

/-- Canonical digit run of an integer as written inside `i...e`:
an optional minus sign followed by the decimal digits (no leading
zero unless the value is exactly 0). -/
def intBody (n : Int) : List Nat :=
  if n < 0 then 45 :: natDecimal (-n).toNat else natDecimal n.toNat

/-- The byte-string literal `<len>:<bytes>` encoding a byte string. -/
def strLit (k : List Nat) : List Nat :=
  natDecimal k.length ++ 58 :: k

/-- The integer literal `i<body>e` encoding an integer. -/
def intLit (n : Int) : List Nat :=
  105 :: intBody n ++ [101]

/-! ## Generic lemmas about the byte-level helpers -/

/-- The byte at cursor `i` is the head of the dropped suffix. -/
theorem getD_of_drop (l : List Nat) (i c : Nat) (s : List Nat)
    (h : l.drop i = c :: s) : l.getD i 0 = c := by
  induction l generalizing i with
  | nil => simp at h
  | cons a l ih =>
    cases i with
    | zero => simp_all
    | succ i => simpa using ih i h

/-- A cursor with a non-empty suffix is in bounds. -/
theorem lt_length_of_drop (l : List Nat) (i c : Nat) (s : List Nat)
    (h : l.drop i = c :: s) : i < l.length := by
  by_contra hle
  rw [List.drop_eq_nil_of_le (by omega)] at h
  exact List.noConfusion h

/-- Length of a buffer in terms of a dropped suffix. -/
theorem length_eq_of_drop (l : List Nat) (i : Nat) (s : List Nat)
    (h : l.drop i = s) (hi : i ≤ l.length) : l.length = i + s.length := by
  have := List.length_drop i l
  rw [h] at this
  omega

/-- A Rust slice starting at the cursor is a take of the dropped suffix. -/
theorem byteSlice_eq_take (data : List Nat) (i m : Nat) :
    byteSlice data i (i + m) = (data.drop i).take m := by
  unfold byteSlice
  rw [List.take_drop]

/-- The length scan skips exactly the digit run and reports the `:`. -/
theorem scanColonAux_digits (ds : List Nat) (i : Nat) (rest : List Nat)
    (h : ∀ b ∈ ds, 48 ≤ b ∧ b ≤ 57) :
    scanColonAux (ds ++ 58 :: rest) i = .ok (i + ds.length) := by
  induction ds generalizing i with
  | nil => simp [scanColonAux]
  | cons d ds ih =>
    have hd := h d (by simp)
    have : scanColonAux (d :: (ds ++ 58 :: rest)) i = scanColonAux (ds ++ 58 :: rest) (i + 1) := by
      simp [scanColonAux, hd.1, hd.2]
    rw [List.cons_append, this, ih (i + 1) fun b hb => h b (by simp [hb])]
    congr 1
    simp
    omega

/-- The integer scan skips the body (free of `e` bytes) and reports the `e`. -/
theorem scanEAux_no_e (bs : List Nat) (i : Nat) (rest : List Nat)
    (h : ∀ b ∈ bs, b ≠ 101) :
    scanEAux (bs ++ 101 :: rest) i = .ok (i + bs.length) := by
  induction bs generalizing i with
  | nil => simp [scanEAux]
  | cons b bs ih =>
    have hb := h b (by simp)
    have : scanEAux (b :: (bs ++ 101 :: rest)) i = scanEAux (bs ++ 101 :: rest) (i + 1) := by
      simp [scanEAux, hb]
    rw [List.cons_append, this, ih (i + 1) fun x hx => h x (by simp [hx])]
    congr 1
    simp
    omega

/-- Pure-ASCII byte sequences are valid UTF-8. -/
theorem validUtf8_ascii (l : List Nat) (h : ∀ b ∈ l, b ≤ 127) :
    validUtf8 l = true := by
  induction l with
  | nil => rfl
  | cons b l ih =>
    have hb := h b (by simp)
    rw [validUtf8] at ih ⊢
    rw [utf8Aux, if_pos hb]
    exact ih fun x hx => h x (by simp [hx])

/-! ## Decimal literals -/

/-- With sufficient fuel, `natDecAux` produces the little-endian decimal
digit bytes. -/
theorem natDecAux_eq_digits (f : Nat) :
    ∀ n : Nat, n ≤ f → natDecAux f n = (Nat.digits 10 n).map (fun d => d + 48) := by
  induction f with
  | zero =>
    intro n hn
    interval_cases n
    simp [natDecAux]
  | succ f ih =>
    intro n hn
    cases n with
    | zero => simp [natDecAux]
    | succ n =>
      rw [natDecAux, Nat.digits_def' (by norm_num) (Nat.succ_pos n)]
      have hdiv : (n + 1) / 10 ≤ f := by
        have := Nat.div_lt_self (Nat.succ_pos n) (by norm_num : 1 < 10)
        omega
      rw [ih _ hdiv]
      simp

/-- Horner evaluation of the reversed, ASCII-shifted digit list. -/
theorem foldl_horner (ds : List Nat) (a : Nat) :
    List.foldl (fun a b => a * 10 + (b - 48)) a ((ds.map (fun d => d + 48)).reverse) =
      a * 10 ^ ds.length + Nat.ofDigits 10 ds := by
  induction ds generalizing a with
  | nil => simp [Nat.ofDigits]
  | cons d ds ih =>
    simp only [List.map_cons, List.reverse_cons, List.foldl_append, List.foldl_cons,
      List.foldl_nil, ih, List.length_cons, Nat.ofDigits_cons]
    have : d + 48 - 48 = d := by omega
    rw [this]
    ring

/-- The decimal byte representation evaluates back to its number. -/
theorem digitsVal_natDecimal (n : Nat) : digitsVal (natDecimal n) = n := by
  by_cases h : n = 0
  · subst h; rfl
  · unfold natDecimal digitsVal
    rw [if_neg h, natDecAux_eq_digits n n le_rfl, foldl_horner]
    simp [Nat.ofDigits_digits]

/-- The decimal byte representation is never empty. -/
theorem natDecimal_ne_nil (n : Nat) : natDecimal n ≠ [] := by
  by_cases h : n = 0
  · subst h; simp [natDecimal]
  · unfold natDecimal
    rw [if_neg h]
    simp only [ne_eq, List.reverse_eq_nil_iff]
    rw [natDecAux_eq_digits n n le_rfl]
    simp [Nat.digits_ne_nil_iff_ne_zero.mpr h]

/-- Every byte of a decimal representation is an ASCII digit. -/
theorem natDecimal_mem_digit (n b : Nat) (hb : b ∈ natDecimal n) :
    48 ≤ b ∧ b ≤ 57 := by
  by_cases h : n = 0
  · subst h; simp [natDecimal] at hb; omega
  · unfold natDecimal at hb
    rw [if_neg h, natDecAux_eq_digits n n le_rfl] at hb
    simp only [List.mem_reverse, List.mem_map] at hb
    obtain ⟨d, hd, rfl⟩ := hb
    have := Nat.digits_lt_base (by norm_num) hd
    omega

/-- `parse::<usize>` recovers the number from its decimal bytes. -/
theorem parseUsize_natDecimal (n : Nat) (h : n < 2 ^ 64) :
    parseUsize (natDecimal n) = .ok n := by
  unfold parseUsize
  rw [if_neg (natDecimal_ne_nil n)]
  have hall : (natDecimal n).all isDigitB = true := by
    rw [List.all_eq_true]
    intro b hb
    have := natDecimal_mem_digit n b hb
    simp [isDigitB]
    omega
  rw [if_pos hall, digitsVal_natDecimal, if_pos h]

/-- Length of a byte-string literal. -/
theorem strLit_length (k : List Nat) :
    (strLit k).length = (natDecimal k.length).length + 1 + k.length := by
  simp [strLit]
  omega

/-- Length of an integer literal. -/
theorem intLit_length (n : Int) :
    (intLit n).length = (intBody n).length + 2 := by
  simp [intLit]

/-- Bytes of an integer body are the minus sign or digits. -/
theorem intBody_mem (n : Int) (b : Nat) (hb : b ∈ intBody n) :
    b = 45 ∨ (48 ≤ b ∧ b ≤ 57) := by
  unfold intBody at hb
  by_cases hn : n < 0
  · rw [if_pos hn] at hb
    rcases List.mem_cons.mp hb with h | h
    · exact Or.inl h
    · exact Or.inr (natDecimal_mem_digit _ b h)
  · rw [if_neg hn] at hb
    exact Or.inr (natDecimal_mem_digit _ b hb)

/-- The digit-run core recovers a number from its decimal bytes. -/
theorem parseI64core_natDecimal (neg : Bool) (m : Nat)
    (h : -(2 ^ 63) ≤ (if neg then -(m : Int) else (m : Int)) ∧
         (if neg then -(m : Int) else (m : Int)) < 2 ^ 63) :
    parseI64core neg (natDecimal m) = .ok (if neg then -(m : Int) else (m : Int)) := by
  unfold parseI64core
  rw [if_neg (natDecimal_ne_nil m)]
  have hall : (natDecimal m).all isDigitB = true := by
    rw [List.all_eq_true]
    intro b hb
    have := natDecimal_mem_digit m b hb
    simp [isDigitB]
    omega
  rw [if_pos hall, digitsVal_natDecimal, if_pos h]

/-- `parse::<i64>` recovers an in-range integer from its canonical body. -/
theorem parseI64_intBody (n : Int) (h1 : -(2 ^ 63) ≤ n) (h2 : n < 2 ^ 63) :
    parseI64 (intBody n) = .ok n := by
  by_cases hn : n < 0
  · rw [intBody, if_pos hn, parseI64, if_pos rfl]
    have hm : ((-n).toNat : Int) = -n := Int.toNat_of_nonneg (by omega)
    have := parseI64core_natDecimal true (-n).toNat (by rw [if_pos rfl, hm]; omega)
    rw [this, if_pos rfl, hm]
    congr 1
    omega
  · have hcons := natDecimal_ne_nil n.toNat
    obtain ⟨c, cs, hc⟩ := List.exists_cons_of_ne_nil hcons
    have hcd : 48 ≤ c ∧ c ≤ 57 := natDecimal_mem_digit _ c (by rw [hc]; simp)
    rw [intBody, if_neg hn, hc, parseI64, if_neg (by omega), if_neg (by omega), ← hc]
    have hm : (n.toNat : Int) = n := Int.toNat_of_nonneg (by omega)
    have := parseI64core_natDecimal false n.toNat (by rw [if_neg (by simp), hm]; constructor <;> omega)
    rw [this, if_neg (by simp), hm]

/-! ## Symbolic evaluation of the tokenizer on literals -/

/-- The tokenizer reads a byte-string literal at the cursor, returning
exactly the declared bytes and advancing past the literal. -/
theorem next_string_at (data : List Nat) (i : Nat) (k rest : List Nat)
    (hd : data.drop i = strLit k ++ rest) (hk : k.length < 2 ^ 64) :
    Tokenizer.next ⟨data, i⟩ = .ok (.string k, ⟨data, i + (strLit k).length⟩) := by
  have hsd : data.drop i = natDecimal k.length ++ 58 :: (k ++ rest) := by
    rw [hd]
    simp [strLit]
  obtain ⟨c, cs, hc⟩ := List.exists_cons_of_ne_nil (natDecimal_ne_nil k.length)
  have hcd : 48 ≤ c ∧ c ≤ 57 := natDecimal_mem_digit _ c (by rw [hc]; simp)
  have hlt : i < data.length := by
    apply lt_length_of_drop data i c (cs ++ 58 :: (k ++ rest))
    rw [hsd, hc]
    simp
  have hgd : data.getD i 0 = c := by
    apply getD_of_drop data i c (cs ++ 58 :: (k ++ rest))
    rw [hsd, hc]
    simp
  have hlen : data.length =
      i + (natDecimal k.length).length + 1 + k.length + rest.length := by
    have := length_eq_of_drop data i _ hsd (by omega)
    simp at this
    omega
  rw [Tokenizer.next]
  dsimp only
  rw [if_neg (by omega)]
  rw [hgd]
  rw [if_neg (by omega), if_pos hcd]
  rw [Tokenizer.next_string]
  dsimp only
  rw [hsd]
  rw [scanColonAux_digits _ _ _ (natDecimal_mem_digit k.length)]
  dsimp only
  have hslice1 : byteSlice data i (i + (natDecimal k.length).length) =
      natDecimal k.length := by
    rw [byteSlice_eq_take, hsd, List.take_left]
  rw [hslice1]
  rw [if_pos (validUtf8_ascii _ fun b hb => by have := natDecimal_mem_digit _ b hb; omega)]
  rw [parseUsize_natDecimal k.length hk]
  dsimp only
  rw [if_neg (by omega)]
  have hdrop2 : data.drop (i + (natDecimal k.length).length + 1) = k ++ rest := by
    have h1 : data.drop (i + ((natDecimal k.length).length + 1)) =
        (data.drop i).drop ((natDecimal k.length).length + 1) := by
      rw [List.drop_drop]
    have h2 : (natDecimal k.length ++ 58 :: (k ++ rest)) =
        (natDecimal k.length ++ [58]) ++ (k ++ rest) := by
      simp
    calc data.drop (i + (natDecimal k.length).length + 1)
        = data.drop (i + ((natDecimal k.length).length + 1)) := by ring_nf
      _ = (data.drop i).drop ((natDecimal k.length).length + 1) := h1
      _ = k ++ rest := by
          rw [hsd, h2, List.drop_left' (by simp)]
  have hslice2 : byteSlice data (i + (natDecimal k.length).length + 1)
      (i + (natDecimal k.length).length + k.length + 1) = k := by
    have harith : i + (natDecimal k.length).length + k.length + 1 =
        (i + (natDecimal k.length).length + 1) + k.length := by omega
    rw [harith, byteSlice_eq_take, hdrop2, List.take_left]
  rw [hslice2]
  have : i + (natDecimal k.length).length + k.length + 1 = i + (strLit k).length := by
    rw [strLit_length]
    omega
  rw [this]

/-- The tokenizer reads an integer literal at the cursor. -/
theorem next_int_at (data : List Nat) (i : Nat) (n : Int) (rest : List Nat)
    (hd : data.drop i = intLit n ++ rest)
    (h1 : -(2 ^ 63) ≤ n) (h2 : n < 2 ^ 63) :
    Tokenizer.next ⟨data, i⟩ = .ok (.int n, ⟨data, i + (intLit n).length⟩) := by
  have hsd : data.drop i = 105 :: (intBody n ++ 101 :: rest) := by
    rw [hd]
    simp [intLit]
  have hlt : i < data.length := lt_length_of_drop data i 105 _ hsd
  have hgd : data.getD i 0 = 105 := getD_of_drop data i 105 _ hsd
  rw [Tokenizer.next]
  dsimp only
  rw [if_neg (by omega)]
  rw [hgd]
  rw [if_pos rfl]
  rw [Tokenizer.next_int]
  dsimp only
  have hdrop1 : data.drop (i + 1) = intBody n ++ 101 :: rest := by
    have : data.drop (i + 1) = (data.drop i).drop 1 := by rw [List.drop_drop]
    rw [this, hsd]
    simp
  rw [hdrop1]
  rw [scanEAux_no_e _ _ _ fun b hb => by rcases intBody_mem n b hb with h | h <;> omega]
  dsimp only
  have hslice : byteSlice data (i + 1) (i + 1 + (intBody n).length) = intBody n := by
    rw [byteSlice_eq_take, hdrop1, List.take_left]
  rw [hslice]
  rw [if_pos (validUtf8_ascii _ fun b hb => by rcases intBody_mem n b hb with h | h <;> omega)]
  rw [parseI64_intBody n h1 h2]
  have : i + 1 + (intBody n).length + 1 = i + (intLit n).length := by
    rw [intLit_length]
    omega
  rw [this]

/-- The tokenizer reads a dictionary-start marker at the cursor. -/
theorem next_dict_at (data : List Nat) (i : Nat) (rest : List Nat)
    (hd : data.drop i = 100 :: rest) :
    Tokenizer.next ⟨data, i⟩ = .ok (.dictStart, ⟨data, i + 1⟩) := by
  have hlt : i < data.length := lt_length_of_drop data i 100 _ hd
  have hgd : data.getD i 0 = 100 := getD_of_drop data i 100 _ hd
  rw [Tokenizer.next]
  dsimp only
  rw [if_neg (by omega)]
  rw [hgd]
  rw [if_neg (by omega), if_neg (by omega), if_pos rfl]

/-- The tokenizer reads an end marker at the cursor. -/
theorem next_end_at (data : List Nat) (i : Nat) (rest : List Nat)
    (hd : data.drop i = 101 :: rest) :
    Tokenizer.next ⟨data, i⟩ = .ok (.listDictEnd, ⟨data, i + 1⟩) := by
  have hlt : i < data.length := lt_length_of_drop data i 101 _ hd
  have hgd : data.getD i 0 = 101 := getD_of_drop data i 101 _ hd
  rw [Tokenizer.next]
  dsimp only
  rw [if_neg (by omega)]
  rw [hgd]
  rw [if_neg (by omega), if_neg (by omega), if_neg (by omega), if_pos rfl]

/-! ## Symbolic evaluation of the recursive-descent parser -/

/-- The decimal representation has at least one byte. -/
theorem natDecimal_length_pos (n : Nat) : 0 < (natDecimal n).length :=
  List.length_pos.mpr (natDecimal_ne_nil n)

/-- One `parse_dict` loop iteration over a key literal followed by an
integer-literal value: the pair is inserted with `hmInsert` and the
loop continues past both literals. -/
theorem parse_dict_step_int (f : Nat) (t : Tokenizer)
    (dict : List (List Nat × Bencode)) (pos : Pos)
    (k : List Nat) (n : Int) (rest : List Nat)
    (hd : t.data.drop t.index = strLit k ++ intLit n ++ rest)
    (hutf : validUtf8 k = true) (hk : k.length < 2 ^ 64)
    (h1 : -(2 ^ 63) ≤ n) (h2 : n < 2 ^ 63) :
    parse_dict (f + 1) t dict pos =
      parse_dict f ⟨t.data, t.index + (strLit k).length + (intLit n).length⟩
        (hmInsert dict k (.int n ⟨t.index + (strLit k).length,
          t.index + (strLit k).length + (intLit n).length⟩)) pos := by
  obtain ⟨data, i⟩ := t
  simp only at hd
  have hdint : data.drop (i + (strLit k).length) = intLit n ++ rest := by
    have h1 : data.drop (i + (strLit k).length) = (data.drop i).drop (strLit k).length := by
      rw [List.drop_drop]
    rw [h1, hd]
    rw [show strLit k ++ intLit n ++ rest = strLit k ++ (intLit n ++ rest) by simp]
    rw [List.drop_left]
  rw [parse_dict]
  rw [next_string_at data i k (intLit n ++ rest) (by rw [hd]; simp) hk]
  dsimp only
  rw [if_pos hutf]
  rw [next_int_at data (i + (strLit k).length) n rest hdint h1 h2]

/-- A `parse_dict` iteration that meets the end marker returns the
accumulated dictionary, closing the span at the byte after the `e`. -/
theorem parse_dict_end_at (f : Nat) (t : Tokenizer)
    (dict : List (List Nat × Bencode)) (pos : Pos) (rest : List Nat)
    (hd : t.data.drop t.index = 101 :: rest) :
    parse_dict (f + 1) t dict pos =
      .ok (.dict dict ⟨pos.start, t.index + 1⟩, ⟨t.data, t.index + 1⟩) := by
  obtain ⟨data, i⟩ := t
  simp only at hd
  rw [parse_dict]
  rw [next_end_at data i rest hd]

/-- A `parse_dict` iteration whose key bytes are not valid UTF-8 fails
with the `String::from_utf8` error. -/
theorem parse_dict_badkey_at (f : Nat) (t : Tokenizer)
    (dict : List (List Nat × Bencode)) (pos : Pos) (k rest : List Nat)
    (hd : t.data.drop t.index = strLit k ++ rest)
    (hbad : validUtf8 k = false) (hk : k.length < 2 ^ 64) :
    parse_dict (f + 1) t dict pos = .err "invalid utf-8 sequence" := by
  obtain ⟨data, i⟩ := t
  simp only at hd
  rw [parse_dict]
  rw [next_string_at data i k rest hd hk]
  dsimp only
  rw [if_neg (by simp [hbad])]

/-! ## Auxiliary facts for the extractor claims -/

/-- If some entry of a "files" list fails `File::from_bencode`, the
collecting loop aborts with the message "Invalid file". -/
theorem filesFrom_err (l : List Bencode)
    (h : ∃ f ∈ l, ∃ e, File.from_bencode f = .error e) :
    filesFrom l = .error "Invalid file" := by
  induction l with
  | nil => simp at h
  | cons f l ih =>
    rw [filesFrom]
    cases hf : File.from_bencode f with
    | error e2 => rfl
    | ok file =>
      obtain ⟨g, hg, e, hge⟩ := h
      rcases List.mem_cons.mp hg with h2 | hgl
      · subst h2
        rw [hf] at hge
        cases hge
      · rw [ih ⟨g, hgl, e, hge⟩]

/-! ## The claims -/

/-- C1: the spec demands that a ByteString token whose declared length
exceeds the bytes remaining after the `:` makes `next()`/`parse()`
return an error, never panicking or reading out of bounds.  The code
instead panics: on the buffer "5:ab" the slice
`data[index+1..index+length+1]` is out of range. -/
theorem c1_overlong_declared_length_panics :
    parse (ascii "5:ab") = .panic := rfl

/-- C2: the spec demands that a "pieces" byte string whose length is
not a multiple of 20 fails extraction with an error (and a multiple of
20 succeeds with length/20 digests).  The multiple-of-20 half holds,
but on a 10-byte pieces string the slice `s[i..i+20]` panics instead
of returning an error. -/
theorem c2_pieces_remainder_panics :
    extract_pieces [(ascii "pieces", .string (List.replicate 40 97) ⟨0, 0⟩)] =
        .ok [List.replicate 20 97, List.replicate 20 97] ∧
    extract_pieces [(ascii "pieces", .string (List.replicate 10 97) ⟨0, 0⟩)] = .panic :=
  ⟨rfl, rfl⟩

/-- C3: the spec claims every child span is strictly contained in its
parent's span and sibling spans are monotonically increasing.  On
"li1ei2ee" the decoder gives the integer elements the spans [0,4) and
[0,7): both share the parent list's start 0 (the `Int` arm of
`parse_list` builds `Pos{end: idx, ..pos}`), so the children are not
strictly contained and the siblings overlap. -/
theorem c3_list_int_span_eval :
    parse (ascii "li1ei2ee") =
      .ok (.list [.int 1 ⟨0, 4⟩, .int 2 ⟨0, 7⟩] ⟨0, 8⟩) := rfl

/-- C4: the spec demands that an integer literal with a leading zero
(value not 0) is rejected, as are an empty digit run and a non-digit
byte before the `e`.  The last two hold, but "i042e" is accepted with
value 42 because Rust's `parse::<i64>` accepts leading zeros. -/
theorem c4_leading_zero_accepted :
    parse (ascii "i042e") = .ok (.int 42 ⟨0, 5⟩) ∧
    (∃ e, parse (ascii "ie") = .err e) ∧
    (∃ e, parse (ascii "iabce") = .err e) :=
  ⟨rfl, ⟨_, rfl⟩, ⟨_, rfl⟩⟩

/-- C5 counterexample: an info dictionary with "name" and
"piece length" but no "pieces" key is extracted successfully with an
empty digest table, contradicting the claim that `Info::from_bencode`
must fail when "pieces" is absent. -/
theorem c5_missing_pieces_succeeds :
    Info.from_bencode (.dict [(ascii "name", .string [97] ⟨0, 0⟩),
        (ascii "piece length", .int 1 ⟨0, 0⟩)] ⟨0, 0⟩) =
      .ok ⟨none, none, [97], 1, []⟩ := rfl

/-- C5 amended: when the info dictionary has no "pieces" key (and its
other fields validate), extraction succeeds and the digest table is
empty — absence of "pieces" is treated as an empty table, not as a
missing required field. -/
theorem c5_amended_missing_pieces_empty
    (entries : List (List Nat × Bencode)) (nb : List Nat) (pl : Int) (p q r : Pos)
    (hn : hmGet entries (ascii "name") = some (.string nb q))
    (hutf : validUtf8 nb = true)
    (hpl : hmGet entries (ascii "piece length") = some (.int pl r))
    (hfiles : hmGet entries (ascii "files") = none)
    (hlen : hmGet entries (ascii "length") = none)
    (hpieces : hmGet entries (ascii "pieces") = none) :
    Info.from_bencode (.dict entries p) = .ok ⟨none, none, nb, pl, []⟩ := by
  rw [Info.from_bencode]
  rw [hfiles, extract_option_i64, hlen, extract_string, hn,
    extract_i64, hpl, extract_pieces, hpieces]
  dsimp only
  rw [if_pos hutf]

/-- C5 witness: a concrete info dictionary without "pieces". -/
theorem c5_amended_witness :
    Info.from_bencode (.dict [(ascii "name", .string [97] ⟨0, 0⟩),
        (ascii "piece length", .int 7 ⟨0, 0⟩)] ⟨0, 0⟩) =
      .ok ⟨none, none, [97], 7, []⟩ :=
  c5_amended_missing_pieces_empty _ [97] 7 ⟨0, 0⟩ ⟨0, 0⟩ ⟨0, 0⟩
    rfl rfl rfl rfl rfl rfl

/-- C6 counterexample: a file entry whose "path" is an empty list is
accepted by `File::from_bencode` (result: empty path), contradicting
the claim that an empty "path" list fails validation. -/
theorem c6_empty_path_accepted :
    File.from_bencode (.dict [(ascii "length", .int 5 ⟨0, 0⟩),
        (ascii "path", .list [] ⟨0, 0⟩)] ⟨0, 0⟩) = .ok ⟨5, []⟩ := rfl

/-- C6 amended: "path" must be a List of UTF-8 ByteStrings but may be
empty — an entry with an empty "path" list extracts to an empty path —
and any entry failing validation still aborts the whole extraction
with an error (no partial result). -/
theorem c6_amended_path_rules :
    (∀ (n : Int) (p q r : Pos),
       File.from_bencode (.dict [(ascii "length", .int n q),
           (ascii "path", .list [] r)] p) = .ok ⟨n, []⟩) ∧
    (∀ (entries : List (List Nat × Bencode)) (bfiles : List Bencode) (q p : Pos),
       hmGet entries (ascii "files") = some (.list bfiles q) →
       (∃ f ∈ bfiles, ∃ e, File.from_bencode f = .error e) →
       Info.from_bencode (.dict entries p) = .err "Invalid file") := by
  constructor
  · intro n p q r
    rfl
  · intro entries bfiles q p hget hex
    rw [Info.from_bencode]
    rw [hget]
    dsimp only
    rw [filesFrom_err bfiles hex]

/-- C6 witness: the empty-path acceptance at length 9, and the abort
on a files list whose entry is not a dictionary. -/
theorem c6_amended_witness :
    File.from_bencode (.dict [(ascii "length", .int 9 ⟨0, 0⟩),
        (ascii "path", .list [] ⟨0, 0⟩)] ⟨0, 0⟩) = .ok ⟨9, []⟩ ∧
    Info.from_bencode (.dict [(ascii "files", .list [.int 0 ⟨0, 0⟩] ⟨0, 0⟩)] ⟨0, 0⟩) =
      .err "Invalid file" :=
  ⟨c6_amended_path_rules.1 9 ⟨0, 0⟩ ⟨0, 0⟩ ⟨0, 0⟩,
   c6_amended_path_rules.2 _ _ ⟨0, 0⟩ ⟨0, 0⟩ rfl
     ⟨.int 0 ⟨0, 0⟩, by simp, "Expected dictionary for file", rfl⟩⟩

/-- C7: the spec demands that exhausting the input inside an
unterminated List or Dictionary makes `parse()` return an error.  That
holds when the input ends at a token boundary ("l4:spam", "d3:cow"),
but on "li42" — a list whose integer element is never terminated — the
tokenizer scans past the end of the buffer and panics instead of
returning an error. -/
theorem c7_truncated_container_eval :
    (∃ e, parse (ascii "l4:spam") = .err e) ∧
    (∃ e, parse (ascii "d3:cow") = .err e) ∧
    parse (ascii "li42") = .panic :=
  ⟨⟨_, rfl⟩, ⟨_, rfl⟩, rfl⟩

/-- C8: every buffer consisting of a canonical integer literal
`i<N>e` (no leading zero, `-` for negatives, value in the signed
64-bit range) decodes to Integer(N) with span exactly the literal's
byte extent `[0, length)`. -/
theorem c8_int_literal_roundtrip (n : Int)
    (h1 : -(2 ^ 63) ≤ n) (h2 : n < 2 ^ 63) :
    parse (intLit n) = .ok (.int n ⟨0, (intLit n).length⟩) := by
  rw [parse, Parser.parse]
  dsimp only
  rw [next_int_at (intLit n) 0 n [] (by simp) h1 h2]
  dsimp only
  rw [Nat.zero_add]

/-- C8 witness: "i42e" decodes to Integer(42) with span [0,4), and
"i-42e" to Integer(-42) with span [0,5). -/
theorem c8_int_literal_witness :
    intLit 42 = [105, 52, 50, 101] ∧ intLit (-42) = [105, 45, 52, 50, 101] ∧
    parse (intLit 42) = .ok (.int 42 ⟨0, (intLit 42).length⟩) ∧
    parse (intLit (-42)) = .ok (.int (-42) ⟨0, (intLit (-42)).length⟩) :=
  ⟨rfl, rfl, c8_int_literal_roundtrip 42 (by decide) (by decide),
   c8_int_literal_roundtrip (-42) (by decide) (by decide)⟩

/-- C9: a dictionary source repeating a key decodes successfully, and
the resulting dictionary binds the key to the value of the later
occurrence (last write wins, no duplicate-detection error): for every
UTF-8 key and in-range integer values v1 and v2, the buffer
`d <key> i<v1>e <key> i<v2>e e` decodes to a one-entry dictionary
mapping the key to Integer(v2). -/
theorem c9_duplicate_key_last_wins (k : List Nat) (v1 v2 : Int)
    (hutf : validUtf8 k = true) (hk : k.length < 2 ^ 64)
    (h11 : -(2 ^ 63) ≤ v1) (h12 : v1 < 2 ^ 63)
    (h21 : -(2 ^ 63) ≤ v2) (h22 : v2 < 2 ^ 63) :
    ∃ p q, parse (100 :: (strLit k ++ intLit v1 ++ strLit k ++ intLit v2 ++ [101])) =
      .ok (.dict [(k, .int v2 p)] q) := by
  refine ⟨⟨1 + (strLit k).length + (intLit v1).length + (strLit k).length,
           1 + (strLit k).length + (intLit v1).length + (strLit k).length +
             (intLit v2).length⟩,
          ⟨0, 1 + (strLit k).length + (intLit v1).length + (strLit k).length +
             (intLit v2).length + 1⟩, ?_⟩
  have hfuel : (100 :: (strLit k ++ intLit v1 ++ strLit k ++ intLit v2 ++ [101])).length + 1 =
      ((strLit k).length + (intLit v1).length + (strLit k).length +
        (intLit v2).length) + 1 + 1 + 1 := by
    simp only [List.length_cons, List.length_append, List.length_nil]
    try omega
  have hd1 : (100 :: (strLit k ++ intLit v1 ++ strLit k ++ intLit v2 ++ [101])).drop 1 =
      strLit k ++ intLit v1 ++ (strLit k ++ intLit v2 ++ [101]) := by
    simp
  have hd2 : (100 :: (strLit k ++ intLit v1 ++ strLit k ++ intLit v2 ++ [101])).drop
      (1 + (strLit k).length + (intLit v1).length) = strLit k ++ intLit v2 ++ [101] := by
    rw [show (100 :: (strLit k ++ intLit v1 ++ strLit k ++ intLit v2 ++ [101])) =
        (100 :: (strLit k ++ intLit v1)) ++ (strLit k ++ intLit v2 ++ [101]) by simp]
    rw [List.drop_left' (by simp only [List.length_cons, List.length_append, List.length_nil]; try omega)]
  have hd3 : (100 :: (strLit k ++ intLit v1 ++ strLit k ++ intLit v2 ++ [101])).drop
      (1 + (strLit k).length + (intLit v1).length + (strLit k).length +
        (intLit v2).length) = 101 :: [] := by
    rw [show (100 :: (strLit k ++ intLit v1 ++ strLit k ++ intLit v2 ++ [101])) =
        (100 :: (strLit k ++ intLit v1 ++ strLit k ++ intLit v2)) ++ [101] by simp]
    rw [List.drop_left' (by simp only [List.length_cons, List.length_append, List.length_nil]; try omega)]
  rw [parse, Parser.parse]
  dsimp only
  rw [next_dict_at _ 0 (strLit k ++ intLit v1 ++ strLit k ++ intLit v2 ++ [101]) (by simp)]
  dsimp only
  simp only [Nat.zero_add]
  rw [hfuel]
  rw [parse_dict_step_int _ ⟨_, 1⟩ [] ⟨0, 1⟩ k v1
    (strLit k ++ intLit v2 ++ [101]) hd1 hutf hk h11 h12]
  dsimp only
  rw [parse_dict_step_int _ ⟨_, 1 + (strLit k).length + (intLit v1).length⟩ _ ⟨0, 1⟩ k v2
    [101] hd2 hutf hk h21 h22]
  dsimp only
  rw [parse_dict_end_at _ ⟨_, 1 + (strLit k).length + (intLit v1).length +
      (strLit k).length + (intLit v2).length⟩ _ ⟨0, 1⟩ [] hd3]
  dsimp only
  simp [hmInsert]

/-- C9 witness: "d1:ai1e1:ai2ee" decodes to the dictionary mapping
"a" to Integer(2). -/
theorem c9_duplicate_key_witness :
    ∃ p q, parse (100 :: (strLit [97] ++ intLit 1 ++ strLit [97] ++ intLit 2 ++ [101])) =
      .ok (.dict [([97], .int 2 p)] q) :=
  c9_duplicate_key_last_wins [97] 1 2 (by decide) (by decide)
    (by decide) (by decide) (by decide) (by decide)

/-- C10: a dictionary whose key position holds a ByteString whose
bytes are not valid UTF-8 makes `parse()` return an error, for every
such key and any continuation of the buffer. -/
theorem c10_invalid_utf8_key_fails (key rest : List Nat)
    (hbad : validUtf8 key = false) (hk : key.length < 2 ^ 64) :
    ∃ e, parse (100 :: (strLit key ++ rest)) = .err e := by
  refine ⟨"invalid utf-8 sequence", ?_⟩
  rw [parse, Parser.parse]
  dsimp only
  rw [next_dict_at _ 0 (strLit key ++ rest) (by simp)]
  dsimp only
  simp only [Nat.zero_add]
  rw [parse_dict_badkey_at _ ⟨_, 1⟩ [] ⟨0, 1⟩ key rest (by simp) hbad hk]

/-- C10 witness: the buffer "d1:" followed by the byte 0xFF (an
invalid UTF-8 key) is rejected. -/
theorem c10_invalid_utf8_key_witness :
    ∃ e, parse (100 :: (strLit [255] ++ [])) = .err e :=
  c10_invalid_utf8_key_fails [255] [] (by decide) (by decide)

example : ascii "pieces" = [112, 105, 101, 99, 101, 115] := rfl

example : parse [105, 52, 50, 101] = .ok (.int 42 ⟨0, 4⟩) := rfl

example : parse (ascii "i42e") = .ok (.int 42 ⟨0, 4⟩) := rfl
